import Mathlib

/-!
Verification development for the pyface wxPhoenix/py3 repository.

Shallow embedding of the toolkit-glue logic that the specification talks
about: the wx interactive Python shell (pyface/ui/wx/python_shell.py), the
Qt menu bar manager (pyface/ui/qt4/action/menu_bar_manager.py), the Qt GUI
test assistant (pyface/ui/qt4/util/gui_test_assistant.py), and the dialog,
action, widget and toolkit-resolution behaviour exercised by the test
suite.  Python side effects (sys stream assignment, busy cursors, history,
handler invocation) are modelled by explicit state records; Python
exceptions are modelled with Except.
-/

namespace Pyface

/-- Python str.rstrip with no argument: drop trailing whitespace. -/
def pyRstrip (s : String) : String :=
  String.mk (List.reverse (List.dropWhile Char.isWhitespace s.data.reverse))

/-- Python str.startswith: the second string is an initial segment of the first. -/
def pyStartsWith (s pre : String) : Bool :=
  List.isPrefixOf pre.data s.data

/-- Python os.path.basename restricted to slash-separated paths: the final
path component, i.e. everything after the last slash. -/
def basename (p : String) : String :=
  String.mk (List.reverse (List.takeWhile (fun c => c ≠ '/') p.data.reverse))

/-! ## PythonShell.execute_file (pyface/ui/wx/python_shell.py)

The function saves sys.argv, sys.modules for the main module name, and the
three standard streams; installs a fresh argv, a fresh main module, and
redirected streams (a null I/O object when hidden, the shell control when
not); executes the file; and restores the five saved values in a finally
block, so restoration happens whether or not the exec raises. -/

/-- Where a standard stream of the process currently points. -/
inductive IOTarget where
  | nullDevice
  | shellControl
  | external (id : Nat)
  deriving DecidableEq, Repr

/-- The parts of the Python sys module state that execute_file saves,
mutates and restores: argv, the entry for the main module in sys.modules,
and the three standard streams. -/
structure SysState where
  argv : List String
  mainModule : Nat
  stdin : IOTarget
  stdout : IOTarget
  stderr : IOTarget
  deriving DecidableEq, Repr

/-- The observable effect of one execute_file call: the sys state in force
while the compiled file body runs, the outcome of the exec (the error case
is the exception propagating out of execute_file), and the sys state after
the finally block has run. -/
structure ExecFileTrace where
  duringExec : SysState
  result : Except Unit Unit
  final : SysState
  deriving Repr

/-- PythonShell.execute_file, with the exec of the compiled file abstracted
by the flag execRaises and the fresh module object by the identifier
freshMod.  Mirrors the source: argv becomes the basename of the path, the
main module entry becomes the fresh module, the three streams go to a
null I/O object or to the shell control depending on hidden, and the
finally block reinstates all five saved values. -/
def execute_file (s0 : SysState) (path : String) (freshMod : Nat)
    (hidden : Bool) (execRaises : Bool) : ExecFileTrace :=
  let filename := basename path
  let redirected : IOTarget := if hidden then .nullDevice else .shellControl
  let s1 : SysState :=
    { argv := [filename]
      mainModule := freshMod
      stdin := redirected
      stdout := redirected
      stderr := redirected }
  let res : Except Unit Unit := if execRaises then .error () else .ok ()
  let sFinal : SysState :=
    { s1 with
      argv := s0.argv
      mainModule := s0.mainModule
      stdin := s0.stdin
      stdout := s0.stdout
      stderr := s0.stderr }
  { duringExec := s1, result := res, final := sFinal }

/-! ## PyShell.autoCompleteShow (pyface/ui/wx/python_shell.py)

autoCompleteShow asks the interpreter for the candidate list; only when
that list is truthy does it rebuild self.autocomp_list (filtered by
startswith when a truthy filter is given, the whole list otherwise) and
call AutoCompShow.  When the interpreter returns an empty list the method
does nothing further: autocomp_list keeps its previous contents and no
popup is shown. -/

/-- The observable outcome of one autoCompleteShow call: the value of
self.autocomp_list afterwards, and the options string passed to the native
AutoCompShow popup when it was invoked (none when it was not). -/
structure AutoCompleteTrace where
  autocomp_list : List String
  popupShown : Option String
  deriving DecidableEq, Repr

/-- PyShell.autoCompleteShow. prev is the value of self.autocomp_list on
entry; values is the list returned by interp.getAutoCompleteList; filt is
the filter argument, none when absent.  A present-but-empty filter string
is falsy in Python and selects the unfiltered branch, as in the source. -/
def autoCompleteShow (prev values : List String) (filt : Option String) :
    AutoCompleteTrace :=
  if values.isEmpty then
    { autocomp_list := prev, popupShown := none }
  else
    let lst :=
      match filt with
      | some f =>
          if f.isEmpty then values
          else values.filter (fun v => pyStartsWith v f)
      | none => values
    { autocomp_list := lst, popupShown := some (" ".intercalate lst) }

/-! ## PyShell.hidden_push (pyface/ui/wx/python_shell.py)

hidden_push brackets the work in wx.BeginBusyCursor / wx.EndBusyCursor with
the end call in a finally block; it sets waiting, pushes the command to the
interpreter, clears waiting, and when the push reports the command complete
(more is false) appends the rstripped command to the history and calls
every registered handler. -/

/-- The observable effect of one hidden_push call. -/
structure HiddenPushTrace where
  beginBusyCalls : Nat
  endBusyCalls : Nat
  historyAdded : List String
  handlerCalls : Nat
  waiting : Bool
  result : Except Unit Unit
  deriving Repr

/-- PyShell.hidden_push, with interp.push abstracted by its outcome: error
when the push raises, ok more otherwise.  numHandlers is the number of
registered handlers; handlerCalls counts the handler invocations made. -/
def hidden_push (pushOutcome : Except Unit Bool) (numHandlers : Nat)
    (command : String) : HiddenPushTrace :=
  match pushOutcome with
  | .error e =>
      { beginBusyCalls := 1
        endBusyCalls := 1
        historyAdded := []
        handlerCalls := 0
        waiting := true
        result := .error e }
  | .ok more =>
      if more then
        { beginBusyCalls := 1
          endBusyCalls := 1
          historyAdded := []
          handlerCalls := 0
          waiting := false
          result := .ok () }
      else
        { beginBusyCalls := 1
          endBusyCalls := 1
          historyAdded := [pyRstrip command]
          handlerCalls := numHandlers
          waiting := false
          result := .ok () }

/-! ## MenuBarManager.create_menu_bar (pyface/ui/qt4/action/menu_bar_manager.py)

create_menu_bar picks the effective controller (argument wins over the
manager trait), obtains the native menu bar (on darwin with a QMainWindow
parent: reparent the existing bar to None and reuse it; otherwise a fresh
QMenuBar), then for every group in order and every item of the group in
order creates a menu, sets its menuAction text to the item name, and adds
it to the bar. -/

/-- An item of an action group; create_menu_bar expects every item to be a
menu manager, of which only the name matters here. -/
structure ActionItem where
  name : String
  deriving DecidableEq, Repr

/-- A group of a menu bar manager. -/
structure ActionGroup where
  items : List ActionItem
  deriving DecidableEq, Repr

/-- The state of a MenuBarManager that create_menu_bar reads: its groups
and its controller trait.  C is the type of controller objects. -/
structure MenuBarManagerModel (C : Type) where
  groups : List ActionGroup
  controller : Option C

/-- A native menu as produced for one item: which item created it, the
text set on its menuAction, and the controller passed to create_menu. -/
structure Menu (C : Type) where
  item : ActionItem
  actionText : String
  controller : Option C

/-- The native menu bar returned by create_menu_bar.  reusedExistingBar
records whether the darwin workaround reparented and reused the parent
window menu bar instead of constructing a new QMenuBar. -/
structure MenuBar (C : Type) where
  reusedExistingBar : Bool
  menus : List (Menu C)

/-- MenuBarManager.create_menu_bar.  parentIsQMainWindow abstracts the
isinstance check on the parent and platformIsDarwin the sys.platform
check; ctrl is the controller argument, none when absent. -/
def create_menu_bar {C : Type} (mgr : MenuBarManagerModel C)
    (parentIsQMainWindow platformIsDarwin : Bool) (ctrl : Option C) :
    MenuBar C :=
  let controller : Option C :=
    match ctrl with
    | none => mgr.controller
    | some c => some c
  let reused := parentIsQMainWindow && platformIsDarwin
  let menus : List (Menu C) :=
    mgr.groups.flatMap (fun group =>
      group.items.map (fun item =>
        { item := item, actionText := item.name, controller := controller }))
  { reusedExistingBar := reused, menus := menus }

/-! ## GuiTestAssistant.event_loop_until_traits_change
(pyface/ui/qt4/util/gui_test_assistant.py)

The context manager turns the trait-name arguments into a set; when that
set is empty it sets the threading.Event condition before ever entering
the event loop.  For each listed trait it installs one handler; a handler
for trait t inserts t into recorded_changes and sets the condition when
recorded_changes equals the trait set.  A finally block removes every
installed handler, whether or not the body raised. -/

/-- The mutable state shared by the handlers: the set of traits for which
a change notification has been recorded, and whether the threading.Event
condition has been set. -/
structure ELTState where
  recorded : Finset String
  conditionIsSet : Bool
  deriving DecidableEq

/-- The body of one handler (set_event in the source): record the trait
and set the condition when every listed trait has now been recorded. -/
def set_event (traits : Finset String) (s : ELTState) (t : String) :
    ELTState :=
  let recorded := insert t s.recorded
  { recorded := recorded
    conditionIsSet := if recorded = traits then true else s.conditionIsSet }

/-- Delivery of one trait-change notification: only traits in the listened
set have a handler installed, so other notifications leave the state
unchanged. -/
def deliver (traits : Finset String) (s : ELTState) (t : String) : ELTState :=
  if t ∈ traits then set_event traits s t else s

/-- The observable outcome of one event_loop_until_traits_change call. -/
structure ELTTrace where
  conditionBeforeLoop : Bool
  conditionAfter : Bool
  handlersAfter : Finset String
  result : Except Unit Unit

/-- GuiTestAssistant.event_loop_until_traits_change.  traitNames are the
positional trait-name arguments; events is the sequence of trait-change
notifications delivered while the handlers are installed; bodyRaises
abstracts whether the wrapped block raises.  The handler removal loop of
the finally block is modelled by erasing each handler key from the
installed set. -/
def event_loop_until_traits_change (traitNames : List String)
    (events : List String) (bodyRaises : Bool) : ELTTrace :=
  let traits : Finset String := traitNames.toFinset
  let s0 : ELTState :=
    { recorded := ∅
      conditionIsSet := if traits = ∅ then true else false }
  let installed := traits
  let sFinal := events.foldl (deliver traits) s0
  let handlersAfter :=
    traitNames.dedup.foldl (fun acc t => acc.erase t) installed
  { conditionBeforeLoop := s0.conditionIsSet
    conditionAfter := sFinal.conditionIsSet
    handlersAfter := handlersAfter
    result := if bodyRaises then .error () else .ok () }

/-! ## SingleChoiceDialog (pyface/ui/qt4/single_choice_dialog.py, not under src)

Only the test module for SingleChoiceDialog ships here; the dialog class
itself is absent, so its behaviour is modelled from the specification and
settled against that model. -/

/-- Modelled from the spec: the conversion _choice_strings applies to one
choice, taking the attribute named by name_attribute when that trait is
set.  toStr plays the role of Python str on a choice and nameAttr, when
present, the role of fetching the named attribute and applying str to it. -/
def choice_conv {α : Type} (toStr : α → String)
    (nameAttr : Option (α → String)) : α → String :=
  fun c =>
    match nameAttr with
    | some attr => attr c
    | none => toStr c

/-- Modelled from the spec: SingleChoiceDialog._choice_strings is not under
src (only pyface/tests/test_single_choice_dialog.py is).  Per the spec the
dialog choice list must reject empty or duplicate entries with a
ValueError, and otherwise the choices are converted to strings via
choice_conv. -/
def choice_strings {α : Type} (toStr : α → String)
    (nameAttr : Option (α → String)) (choices : List α) :
    Except String (List String) :=
  let strs := choices.map (choice_conv toStr nameAttr)
  if strs.isEmpty then
    .error "dialog requires at least one choice"
  else if strs.dedup.length ≠ strs.length then
    .error "dialog requires unique choices"
  else
    .ok strs

/-- Result codes of a dialog, pyface.constant.OK and pyface.constant.CANCEL. -/
inductive ReturnCode where
  | OK
  | CANCEL
  deriving DecidableEq, Repr

/-- The state of an open SingleChoiceDialog that closing reads and writes:
the entry currently selected in the native widget, the dialog return_code
and its choice trait. -/
structure SCDialogState where
  selected : String
  return_code : ReturnCode
  choice : Option String
  deriving DecidableEq, Repr

/-- The ways an open dialog gets closed in the tests: close with
accept=True, close with accept=False, or the native window-close path of
the dialog widget. -/
inductive CloseRoute where
  | acceptClose
  | rejectClose
  | nativeClose
  deriving DecidableEq, Repr

/-- Modelled from the spec: the close handling of SingleChoiceDialog is
not under src (only its test module is).  Per the spec a closed dialog
without explicit acceptance yields no chosen value and the cancel result
code, while accepting yields the OK result code and the selected entry;
the native window-close path behaves like a close without acceptance. -/
def scd_close (s : SCDialogState) (route : CloseRoute) : SCDialogState :=
  match route with
  | .acceptClose =>
      { s with return_code := .OK, choice := some s.selected }
  | .rejectClose =>
      { s with return_code := .CANCEL, choice := none }
  | .nativeClose =>
      { s with return_code := .CANCEL, choice := none }

/-! ## Toolkit resolution (pyface/toolkit.py, not under src) -/

/-- A Python class as far as the callers of toolkit_object look at it: its
dunder name attribute. -/
structure PyClass where
  dunderName : String
  deriving DecidableEq, Repr

/-- Modelled from the spec: pyface/toolkit.py is not under src (only the
caller in pyface/tests/test_single_choice_dialog.py is).  Per the spec a
module:ClassName string is resolved against the active toolkit to obtain a
concrete class, and resolution failures surface as a sentinel class named
Unimplemented rather than an exception; resolve abstracts the lookup
against the active toolkit. -/
def toolkit_object (resolve : String → Option PyClass) (objSpec : String) :
    PyClass :=
  match resolve objSpec with
  | some cls => cls
  | none => { dunderName := "Unimplemented" }

/-! ## Action.perform and Action.destroy (pyface/action/action.py, not
under src) -/

/-- The argument of Action.perform; the action event carries no data the
perform logic reads. -/
structure ActionEvent where
  mk ::
  deriving DecidableEq, Repr

/-- Modelled from the spec: pyface/action/action.py is not under src (only
pyface/action/tests/test_action.py is).  Per the spec an action with no
attached handler performs a no-op without error; when a handler is
attached, perform invokes it.  H is the type of handler objects; the ok
value lists the handlers invoked. -/
def Action.perform {H : Type} (on_perform : Option H) (_event : ActionEvent) :
    Except String (List H) :=
  match on_perform with
  | some h => .ok [h]
  | none => .ok []

/-- Modelled from the spec: Action.destroy is not under src.  Per the spec
destroying an action performs no operation and raises no error. -/
def Action.destroy : Except String Unit :=
  .ok ()

/-! ## Widget creation and destruction (pyface/widget.py, not under src) -/

/-- The lifecycle state of an abstract UI object: the native widget handle
it owns, if any.  H is the type of native handles. -/
structure WidgetState (H : Type) where
  control : Option H

/-- Modelled from the spec: the shared widget creation entry point is not
under src (only wx window code and the dialog tests are).  Per the spec
each abstract UI object owns at most one native widget handle, created
lazily; creating must not raise.  fresh is the native control the toolkit
returns. -/
def widget_create {H : Type} (fresh : H) (_w : WidgetState H) :
    Except String (WidgetState H) :=
  .ok { control := some fresh }

/-- Modelled from the spec: the shared widget destroy entry point is not
under src.  Per the spec the handle is destroyed explicitly and creating
and destroying a window must not raise; destroy on an object that never
created a control is a no-op without error. -/
def widget_destroy {H : Type} (w : WidgetState H) :
    Except String (WidgetState H) :=
  match w.control with
  | some _ => .ok { control := none }
  | none => .ok w

/-! ## Theorems -/

/-- Helper: mapping after flattening the groups of items equals flattening
the per-group mapped lists. -/
theorem flatMap_map_items {C : Type} (l : List ActionGroup)
    (f : ActionItem → Menu C) :
    l.flatMap (fun g => g.items.map f) = (l.flatMap ActionGroup.items).map f := by
  induction l with
  | nil => rfl
  | cons g rest ih => simp [List.flatMap_cons, ih]

/-- C1: for every path and every value of the hidden flag, execute_file
redirects the three standard streams for the duration of the exec (to the
null I/O object when hidden, to the shell control when not), and afterwards
restores sys.argv, the main module entry of sys.modules, sys.stdin,
sys.stdout and sys.stderr to their values before the call, also when the
exec raises. -/
theorem execute_file_restores_sys_state (s0 : SysState) (path : String)
    (freshMod : Nat) (hidden execRaises : Bool) :
    ((execute_file s0 path freshMod hidden execRaises).duringExec.stdin
        = (if hidden then IOTarget.nullDevice else IOTarget.shellControl)
      ∧ (execute_file s0 path freshMod hidden execRaises).duringExec.stdout
        = (if hidden then IOTarget.nullDevice else IOTarget.shellControl)
      ∧ (execute_file s0 path freshMod hidden execRaises).duringExec.stderr
        = (if hidden then IOTarget.nullDevice else IOTarget.shellControl))
    ∧ (execute_file s0 path freshMod hidden execRaises).final = s0
    ∧ (execute_file s0 path freshMod hidden execRaises).result
        = (if execRaises then .error () else .ok ()) := by
  refine ⟨⟨rfl, rfl, rfl⟩, ?_, rfl⟩
  cases s0
  rfl

/-- C3: closing an open SingleChoiceDialog without explicit acceptance,
either with accept False or through the native window-close path, yields
return code CANCEL and no choice, whatever entry was selected in the
widget; closing with accept True yields OK and the selected entry. -/
theorem scd_close_spec (s : SCDialogState) :
    ((scd_close s .rejectClose).return_code = .CANCEL
      ∧ (scd_close s .rejectClose).choice = none)
    ∧ ((scd_close s .nativeClose).return_code = .CANCEL
      ∧ (scd_close s .nativeClose).choice = none)
    ∧ ((scd_close s .acceptClose).return_code = .OK
      ∧ (scd_close s .acceptClose).choice = some s.selected) :=
  ⟨⟨rfl, rfl⟩, ⟨rfl, rfl⟩, rfl, rfl⟩

/-- C5: when resolution of a module:ClassName specification fails for the
active toolkit, toolkit_object returns a sentinel class whose dunder name
attribute is Unimplemented instead of raising. -/
theorem toolkit_object_unimplemented_sentinel
    (resolve : String → Option PyClass) (objSpec : String)
    (h : resolve objSpec = none) :
    (toolkit_object resolve objSpec).dunderName = "Unimplemented" := by
  simp [toolkit_object, h]

/-- Witness for C5: a resolver that fails on the specification used by the
dialog tests makes toolkit_object return the Unimplemented sentinel. -/
theorem toolkit_object_unimplemented_sentinel_witness :
    (toolkit_object (fun _ => none)
        "util.modal_dialog_tester:ModalDialogTester").dunderName
      = "Unimplemented" :=
  toolkit_object_unimplemented_sentinel (fun _ => none)
    "util.modal_dialog_tester:ModalDialogTester" rfl

/-- C6: create_menu_bar creates one menu per item of each group, in
declaration order, with the action text set to the item name and with the
effective controller (the argument when one is passed, the manager trait
otherwise), and it reuses the reparented existing menu bar exactly on
darwin with a QMainWindow parent. -/
theorem create_menu_bar_spec {C : Type} (mgr : MenuBarManagerModel C)
    (parentIsQMainWindow platformIsDarwin : Bool) (ctrl : Option C) :
    (create_menu_bar mgr parentIsQMainWindow platformIsDarwin ctrl).reusedExistingBar
      = (parentIsQMainWindow && platformIsDarwin)
    ∧ (create_menu_bar mgr parentIsQMainWindow platformIsDarwin ctrl).menus
      = (mgr.groups.flatMap ActionGroup.items).map
          (fun it =>
            { item := it
              actionText := it.name
              controller :=
                match ctrl with
                | none => mgr.controller
                | some c => some c }) := by
  refine ⟨rfl, ?_⟩
  simpa [create_menu_bar] using
    flatMap_map_items mgr.groups
      (fun it =>
        { item := it
          actionText := it.name
          controller :=
            match ctrl with
            | none => mgr.controller
            | some c => some c })

/-- C7: for every ActionEvent, perform on an action with no attached
handler invokes no handler and raises no error, and destroy raises no
error. -/
theorem action_perform_noop_spec (H : Type) (event : ActionEvent) :
    Action.perform (H := H) none event = .ok []
    ∧ Action.destroy = .ok () :=
  ⟨rfl, rfl⟩

/-- C8: creating a native control and then destroying it raises no error
and leaves the object without a control, and destroy on a widget that
never created a control raises no error either. -/
theorem widget_create_destroy_spec (H : Type) (fresh : H)
    (w : WidgetState H) :
    (widget_create fresh w).bind widget_destroy
      = .ok { control := (none : Option H) }
    ∧ widget_destroy { control := (none : Option H) }
      = .ok { control := (none : Option H) } :=
  ⟨rfl, rfl⟩

/-- C10: hidden_push calls wx.EndBusyCursor exactly once whatever the push
does, also when the push raises; it appends the rstripped command to the
history and calls every registered handler exactly when the push reports
the command complete, and does neither on a continuation or a raise. -/
theorem hidden_push_spec (pushOutcome : Except Unit Bool)
    (numHandlers : Nat) (command : String) :
    (hidden_push pushOutcome numHandlers command).endBusyCalls = 1
    ∧ (hidden_push pushOutcome numHandlers command).beginBusyCalls = 1
    ∧ (pushOutcome = .ok false →
        (hidden_push pushOutcome numHandlers command).historyAdded
            = [pyRstrip command]
          ∧ (hidden_push pushOutcome numHandlers command).handlerCalls
            = numHandlers)
    ∧ (pushOutcome = .ok true →
        (hidden_push pushOutcome numHandlers command).historyAdded = []
          ∧ (hidden_push pushOutcome numHandlers command).handlerCalls = 0)
    ∧ (∀ e, pushOutcome = .error e →
        (hidden_push pushOutcome numHandlers command).historyAdded = []
          ∧ (hidden_push pushOutcome numHandlers command).handlerCalls = 0) := by
  rcases pushOutcome with e | more
  · refine ⟨rfl, rfl, ?_, ?_, ?_⟩
    · intro h
      simp at h
    · intro h
      simp at h
    · intro _ _
      exact ⟨rfl, rfl⟩
  · cases more
    · refine ⟨rfl, rfl, ?_, ?_, ?_⟩
      · intro _
        exact ⟨rfl, rfl⟩
      · intro h
        simp at h
      · intro _ h
        simp at h
    · refine ⟨rfl, rfl, ?_, ?_, ?_⟩
      · intro h
        simp at h
      · intro _
        exact ⟨rfl, rfl⟩
      · intro _ h
        simp at h

/-- Witness for C10: a completed push of a command with trailing blanks
ends the busy cursor once, records the rstripped command and calls both
registered handlers. -/
theorem hidden_push_spec_witness :
    (hidden_push (.ok false) 2 "x = 1  ").endBusyCalls = 1
    ∧ (hidden_push (.ok false) 2 "x = 1  ").historyAdded = ["x = 1"]
    ∧ (hidden_push (.ok false) 2 "x = 1  ").handlerCalls = 2 := by
  have h := hidden_push_spec (.ok false) 2 "x = 1  "
  have h2 := h.2.2.1 rfl
  exact ⟨h.1, h2.1.trans (by decide), h2.2⟩

/-- C2: choice_strings raises a ValueError on an empty choices list and on
a choices list whose string forms contain duplicates, and on every
non-empty duplicate-free list it returns the converted strings (taking the
name_attribute value of each choice when that trait is set, as choice_conv
does). -/
theorem choice_strings_spec (α : Type) (toStr : α → String)
    (nameAttr : Option (α → String)) (choices : List α) :
    (choices = [] →
      choice_strings toStr nameAttr choices
        = .error "dialog requires at least one choice")
    ∧ (¬ (choices.map (choice_conv toStr nameAttr)).Nodup →
      ∃ msg, choice_strings toStr nameAttr choices = .error msg)
    ∧ (choices ≠ [] → (choices.map (choice_conv toStr nameAttr)).Nodup →
      choice_strings toStr nameAttr choices
        = .ok (choices.map (choice_conv toStr nameAttr))) := by
  refine ⟨?_, ?_, ?_⟩
  · intro h
    subst h
    rfl
  · intro hnd
    have hne : choices.map (choice_conv toStr nameAttr) ≠ [] := by
      intro h0
      rw [h0] at hnd
      exact hnd List.nodup_nil
    have hlen : (choices.map (choice_conv toStr nameAttr)).dedup.length
        ≠ (choices.map (choice_conv toStr nameAttr)).length := by
      intro hl
      exact hnd
        (List.dedup_eq_self.mp ((List.dedup_sublist _).eq_of_length hl))
    refine ⟨"dialog requires unique choices", ?_⟩
    simp only [choice_strings]
    rw [if_neg (by simpa [List.isEmpty_iff] using hne), if_pos hlen]
  · intro hne hnd
    have hmapne : choices.map (choice_conv toStr nameAttr) ≠ [] := by
      simpa using hne
    have hlen : (choices.map (choice_conv toStr nameAttr)).dedup.length
        = (choices.map (choice_conv toStr nameAttr)).length := by
      rw [List.dedup_eq_self.mpr hnd]
    simp only [choice_strings]
    rw [if_neg (by simpa [List.isEmpty_iff] using hmapne),
      if_neg (by simpa using hlen)]

/-- Witness for C2: a non-empty duplicate-free pair of string choices
converts to itself, and the duplicated list from the test raises. -/
theorem choice_strings_spec_witness :
    choice_strings id none ["red", "blue"] = .ok ["red", "blue"]
    ∧ ∃ msg, choice_strings id none ["red", "green", "blue", "green"]
        = .error msg := by
  constructor
  · have h := (choice_strings_spec String id none ["red", "blue"]).2.2
      (by decide) (by decide)
    simpa [choice_conv] using h
  · exact (choice_strings_spec String id none
      ["red", "green", "blue", "green"]).2.1 (by decide)

/-- C4 counterexample: the claim says that when no filter is given,
autocomp_list afterwards equals the full candidate list returned by the
interpreter; but when the interpreter returns the empty candidate list the
method leaves autocomp_list untouched, so with a previous value of one
entry the result is not the empty candidate list. -/
theorem autoCompleteShow_claim_false :
    (autoCompleteShow ["x"] [] none).autocomp_list ≠ ([] : List String) := by
  decide

/-- C4 amended: when the interpreter returns a non-empty candidate list,
autoCompleteShow sets autocomp_list to the candidates that start with the
filter (in order) when a non-empty filter string is given and to the full
candidate list when no filter is given; when the interpreter returns an
empty candidate list, autocomp_list keeps its previous value; the native
popup is shown exactly when the candidate list is non-empty. -/
theorem autoCompleteShow_spec (prev values : List String)
    (filt : Option String) :
    ((autoCompleteShow prev values filt).popupShown ≠ none ↔ values ≠ [])
    ∧ (values = [] →
      (autoCompleteShow prev values filt).autocomp_list = prev)
    ∧ (values ≠ [] → ∀ f, filt = some f → f.isEmpty = false →
      (autoCompleteShow prev values filt).autocomp_list
        = values.filter (fun v => pyStartsWith v f))
    ∧ (values ≠ [] → filt = none →
      (autoCompleteShow prev values filt).autocomp_list = values) := by
  rcases values with _ | ⟨v, vs⟩
  · refine ⟨by simp [autoCompleteShow], fun _ => rfl, ?_, ?_⟩
    · intro h
      exact absurd rfl h
    · intro h
      exact absurd rfl h
  · refine ⟨by simp [autoCompleteShow], ?_, ?_, ?_⟩
    · intro h
      cases h
    · intro _ f hf hfe
      subst hf
      simp [autoCompleteShow, hfe]
    · intro _ hf
      subst hf
      rfl

/-- Witness for C4: with candidates abc and bcd and filter a, the list
kept for the popup is exactly abc. -/
theorem autoCompleteShow_spec_witness :
    (autoCompleteShow [] ["abc", "bcd"] (some "a")).autocomp_list
      = ["abc"] := by
  have h := (autoCompleteShow_spec [] ["abc", "bcd"] (some "a")).2.2.1
    (by decide) "a" rfl (by decide)
  exact h.trans (by decide)

/-- Helper: removing every element of a list from a finset contained in
that list leaves the empty finset; this is the handler-removal loop of the
finally block. -/
theorem foldl_erase_eq_empty (l : List String) :
    ∀ s : Finset String, (∀ x ∈ s, x ∈ l) →
      l.foldl (fun acc t => acc.erase t) s = ∅ := by
  induction l with
  | nil =>
      intro s h
      exact Finset.eq_empty_of_forall_not_mem fun x hx => by
        simpa using h x hx
  | cons a l ih =>
      intro s h
      simp only [List.foldl_cons]
      refine ih _ ?_
      intro x hx
      have hxs : x ∈ s := Finset.mem_of_mem_erase hx
      have hne : x ≠ a := Finset.ne_of_mem_erase hx
      rcases List.mem_cons.mp (h x hxs) with h1 | h2
      · exact absurd h1 hne
      · exact h2

/-- Helper: after delivering a sequence of notifications, the condition is
set exactly when it already was, or some delivered notification is
listened to and the recorded set together with the listened part of the
notifications covers the trait set. -/
theorem foldl_deliver_conditionIsSet (traits : Finset String)
    (events : List String) :
    ∀ s : ELTState, s.recorded ⊆ traits →
      (((events.foldl (deliver traits) s).conditionIsSet = true) ↔
        (s.conditionIsSet = true ∨
          ((∃ e ∈ events, e ∈ traits)
            ∧ s.recorded ∪ traits ∩ events.toFinset = traits))) := by
  induction events with
  | nil =>
      intro s hs
      simp
  | cons e rest ih =>
      intro s hs
      simp only [List.foldl_cons]
      by_cases he : e ∈ traits
      · rw [show deliver traits s e = set_event traits s e from if_pos he]
        have hsub : (set_event traits s e).recorded ⊆ traits :=
          Finset.insert_subset he hs
        rw [ih _ hsub]
        have hex : ∃ x ∈ e :: rest, x ∈ traits :=
          ⟨e, List.mem_cons_self e rest, he⟩
        have hset : s.recorded ∪ traits ∩ (e :: rest).toFinset
            = insert e s.recorded ∪ traits ∩ rest.toFinset := by
          rw [List.toFinset_cons, Finset.inter_insert_of_mem he,
            Finset.union_insert, ← Finset.insert_union]
        rw [hset]
        by_cases hins : insert e s.recorded = traits
        · have hA : (set_event traits s e).conditionIsSet = true := by
            simp [set_event, hins]
          have hS : insert e s.recorded ∪ traits ∩ rest.toFinset = traits := by
            rw [hins]
            exact Finset.union_eq_left.mpr Finset.inter_subset_left
          exact iff_of_true (Or.inl hA) (Or.inr ⟨hex, hS⟩)
        · have hA : (set_event traits s e).conditionIsSet
              = s.conditionIsSet := by
            simp [set_event, hins]
          rw [hA]
          have hBS : insert e s.recorded ∪ traits ∩ rest.toFinset = traits →
              ∃ x ∈ rest, x ∈ traits := by
            intro hS
            by_contra hnB
            push_neg at hnB
            have hX : traits ∩ rest.toFinset = ∅ := by
              apply Finset.eq_empty_of_forall_not_mem
              intro x hx
              have hx1 := Finset.mem_inter.mp hx
              exact hnB x (List.mem_toFinset.mp hx1.2) hx1.1
            rw [hX, Finset.union_empty] at hS
            exact hins hS
          constructor
          · rintro (hA1 | ⟨_, hS⟩)
            · exact Or.inl hA1
            · exact Or.inr ⟨hex, hS⟩
          · rintro (hA1 | ⟨_, hS⟩)
            · exact Or.inl hA1
            · exact Or.inr ⟨hBS hS, hS⟩
      · rw [show deliver traits s e = s from if_neg he]
        rw [ih s hs]
        have hset : s.recorded ∪ traits ∩ (e :: rest).toFinset
            = s.recorded ∪ traits ∩ rest.toFinset := by
          rw [List.toFinset_cons, Finset.inter_insert_of_not_mem he]
        have hexiff : (∃ x ∈ e :: rest, x ∈ traits)
            ↔ (∃ x ∈ rest, x ∈ traits) := by
          constructor
          · rintro ⟨x, hx, hxt⟩
            rcases List.mem_cons.mp hx with h1 | h2
            · exact absurd (h1 ▸ hxt) he
            · exact ⟨x, h2, hxt⟩
          · rintro ⟨x, hx, hxt⟩
            exact ⟨x, List.mem_cons_of_mem _ hx, hxt⟩
        rw [hset, hexiff]

/-- C9: event_loop_until_traits_change sets its completion condition
before entering the event loop exactly when called with zero trait names;
after the notifications have been delivered the condition is set exactly
when every listed trait has received a change notification; and every
installed handler has been removed afterwards, whether or not the wrapped
body raised. -/
theorem event_loop_until_traits_change_spec
    (traitNames events : List String) (bodyRaises : Bool) :
    (event_loop_until_traits_change traitNames events bodyRaises).conditionBeforeLoop
      = traitNames.isEmpty
    ∧ (event_loop_until_traits_change traitNames events bodyRaises).conditionAfter
      = traitNames.all (fun t => events.contains t)
    ∧ (event_loop_until_traits_change traitNames events bodyRaises).handlersAfter
      = ∅
    ∧ (event_loop_until_traits_change traitNames events bodyRaises).result
      = (if bodyRaises then Except.error () else Except.ok ()) := by
  refine ⟨?_, ?_, ?_, rfl⟩
  · cases traitNames with
    | nil => rfl
    | cons a l =>
        show (if (a :: l).toFinset = ∅ then true else false) = false
        rw [if_neg]
        rw [List.toFinset_cons]
        exact Finset.insert_ne_empty a l.toFinset
  · have hfold := foldl_deliver_conditionIsSet traitNames.toFinset events
      { recorded := ∅
        conditionIsSet := if traitNames.toFinset = ∅ then true else false }
      (Finset.empty_subset _)
    apply Bool.eq_iff_iff.mpr
    show (events.foldl (deliver traitNames.toFinset)
        { recorded := ∅
          conditionIsSet :=
            if traitNames.toFinset = ∅ then true else false }).conditionIsSet
        = true ↔ traitNames.all (fun t => events.contains t) = true
    rw [hfold, List.all_eq_true]
    simp only [Finset.empty_union]
    constructor
    · rintro (hemp | ⟨⟨x, hxev, hxtr⟩, hsub⟩)
      · intro t ht
        by_cases hP : traitNames.toFinset = ∅
        · exact absurd (List.mem_toFinset.mpr ht) (by simp [hP])
        · rw [if_neg hP] at hemp
          cases hemp
      · intro t ht
        have h1 : t ∈ traitNames.toFinset := List.mem_toFinset.mpr ht
        have h2 := Finset.inter_eq_left.mp hsub h1
        simpa using List.mem_toFinset.mp h2
    · intro hall
      by_cases hemp : traitNames.toFinset = ∅
      · left
        rw [if_pos hemp]
      · right
        have hsub : traitNames.toFinset ⊆ events.toFinset := by
          intro x hx
          have hxev := hall x (List.mem_toFinset.mp hx)
          have hxmem : x ∈ events := by simpa using hxev
          exact List.mem_toFinset.mpr hxmem
        rcases Finset.nonempty_iff_ne_empty.mpr hemp with ⟨x, hx⟩
        refine ⟨⟨x, List.mem_toFinset.mp (hsub hx), hx⟩, ?_⟩
        exact Finset.inter_eq_left.mpr hsub
  · apply foldl_erase_eq_empty
    intro x hx
    exact List.mem_dedup.mpr (List.mem_toFinset.mp hx)

end Pyface
